import Mathlib

/-!
Verification development for the BookSphere multi-agent recommendation core.

The Python source under src/agents is embedded shallowly:

* base_agent.py      : messages, agents, the communication hub
                       (registration, routing, broadcast, history);
* popularity_agent.py: the popularity / trend scoring formulas and the
                       aggregation handlers;
* suggestion_agent.py: the recommendation pipeline (filters, scoring,
                       deduplication, ranking, truncation).

Modelling conventions:

* Python dict payloads (message content) are irrelevant to every claim in
  scope, so message content is embedded as an opaque association list.
* The fields obtained in the source via dict.get(key, default) are embedded
  as total fields holding exactly the value that dict.get returns (the
  default standing for a missing key).
* The uuid message id and the wall-clock timestamp of send_message are
  side effects that no claim observes; they are omitted from the embedded
  message record.
* Python sorted(xs, key=k, reverse=True) is a stable descending sort; it is
  embedded as List.insertionSort with the relation fun a b => k b ≤ k a,
  which is the stable sort for that comparator (equal keys keep their
  original relative order, larger keys come first).
* numpy floating point numbers are embedded as exact rationals where no
  transcendental function occurs, and as real numbers where np.log10 is
  involved.
-/

/-- Opaque stand-in for the Dict[str, Any] message payload of the source;
no claim inspects the payload structure. -/
def MessageContent : Type := List (String × String)

instance : DecidableEq MessageContent := by
  unfold MessageContent
  infer_instance

/-- Embeds the dataclass AgentMessage of base_agent.py (message_id and
timestamp omitted, see the header note). -/
structure AgentMessage where
  sender_id : String
  receiver_id : String
  message_type : String
  content : MessageContent
  priority : Nat
deriving DecidableEq

/-- Embeds the state of BaseAgent of base_agent.py that the hub claims
observe: identity, name, FIFO mailbox, activity flag. -/
structure Agent where
  agent_id : String
  agent_name : String
  message_queue : List AgentMessage
  is_active : Bool
deriving DecidableEq

/-- Embeds BaseAgent.send_message: constructs a message whose sender is the
calling agent itself. -/
def send_message (a : Agent) (receiver_id message_type : String)
    (content : MessageContent) (priority : Nat) : AgentMessage :=
  { sender_id := a.agent_id
    receiver_id := receiver_id
    message_type := message_type
    content := content
    priority := priority }

/-- Embeds BaseAgent.receive_message: appends the message to the mailbox. -/
def receive_message (a : Agent) (m : AgentMessage) : Agent :=
  { a with message_queue := a.message_queue ++ [m] }

/-- Embeds the state of AgentCommunicationHub of base_agent.py.  The Python
dict self.agents is an insertion-ordered map, embedded as an association
list; register_agent keeps keys distinct. -/
structure AgentCommunicationHub where
  agents : List (String × Agent)
  message_history : List AgentMessage
deriving DecidableEq

/-- First-match lookup in the agents map, the embedding of
self.agents[agent_id] and of the membership test receiver_id in self.agents. -/
def lookup_agent (agents : List (String × Agent)) (id : String) : Option Agent :=
  (agents.find? (fun p => p.1 = id)).map (fun p => p.2)

/-- In-place update of the value stored under a key, the embedding of the
dict entry mutation self.agents[id].receive_message(message). -/
def update_agent (id : String) (f : Agent → Agent) :
    List (String × Agent) → List (String × Agent)
  | [] => []
  | (k, a) :: rest =>
      if k = id then (k, f a) :: rest else (k, a) :: update_agent id f rest

/-- Embeds AgentCommunicationHub.register_agent: Python dict assignment
self.agents[agent.agent_id] = agent (update in place when the key exists,
append otherwise; insertion order of surviving keys is preserved). -/
def register_agent (h : AgentCommunicationHub) (a : Agent) : AgentCommunicationHub :=
  if (lookup_agent h.agents a.agent_id).isSome then
    { h with agents := update_agent a.agent_id (fun _ => a) h.agents }
  else
    { h with agents := h.agents ++ [(a.agent_id, a)] }

/-- Embeds AgentCommunicationHub.route_message: when the receiver id is
registered, deliver to its mailbox and append the message to the history;
otherwise only log the failure and leave every piece of state unchanged. -/
def route_message (h : AgentCommunicationHub) (m : AgentMessage) :
    AgentCommunicationHub :=
  if (lookup_agent h.agents m.receiver_id).isSome then
    { agents := update_agent m.receiver_id (fun a => receive_message a m) h.agents
      message_history := h.message_history ++ [m] }
  else h

/-- Embeds AgentCommunicationHub.broadcast_message: one message per
registered agent other than the sender id, each built by calling that
agent.send_message targeted at its own id, each routed independently. -/
def broadcast_message (h : AgentCommunicationHub) (sender_id message_type : String)
    (content : MessageContent) (priority : Nat) : AgentCommunicationHub :=
  h.agents.foldl
    (fun acc p =>
      if p.1 ≠ sender_id then
        route_message acc (send_message p.2 p.1 message_type content priority)
      else acc)
    h

/-- Routing a whole sequence of messages through the hub, in order. -/
def route_all (h : AgentCommunicationHub) (msgs : List AgentMessage) :
    AgentCommunicationHub :=
  msgs.foldl route_message h

/-- The messages a broadcast from sender_id constructs and routes, in
registration order (one per registered agent whose key differs from the
sender id). -/
def broadcast_sends (agents : List (String × Agent)) (sender_id message_type : String)
    (content : MessageContent) (priority : Nat) : List AgentMessage :=
  agents.filterMap
    (fun p =>
      if p.1 ≠ sender_id then
        some (send_message p.2 p.1 message_type content priority)
      else none)

/-- Embeds the catalog record fields that popularity_agent.py reads through
dict.get: average_rating (default 0), ratings_count (default 0, a
non-negative integer), simple_categories (default "Other"). -/
structure BookRecord where
  average_rating : ℝ
  ratings_count : ℕ
  simple_categories : String

/-- Embeds PopularityAnalyzerAgent.get_category_popularity_score: the fixed
category prior table with fallback 0.3 for any category not listed. -/
noncomputable def get_category_popularity_score (category : String) : ℝ :=
  if category = "Fiction" then 0.8
  else if category = "Nonfiction" then 0.7
  else if category = "Children\x27s Fiction" then 0.6
  else if category = "Children\x27s Nonfiction" then 0.5
  else if category = "Other" then 0.3
  else 0.3

/-- Embeds PopularityAnalyzerAgent.calculate_popularity_score.  The weights
are the popularity_weights entries average_rating = 0.3,
ratings_count = 0.25, category_popularity = 0.15; np.log10 is Real.logb 10;
the running score starts at 0 and the result is min-clamped at 1. -/
noncomputable def calculate_popularity_score (book : BookRecord) : ℝ :=
  let score₀ : ℝ := 0
  let score₁ :=
    if book.average_rating > 0
    then score₀ + 0.3 * (book.average_rating / 5) else score₀
  let score₂ :=
    if book.ratings_count > 0
    then score₁ + 0.25 * min (Real.logb 10 ((book.ratings_count : ℝ) + 1) / 5) 1
    else score₁
  let score₃ :=
    score₂ + 0.15 * get_category_popularity_score book.simple_categories
  min score₃ 1

/-- Embeds SuggestionAgent.calculate_simple_popularity_score: the per
candidate baseline used inside the recommendation pipeline. -/
noncomputable def calculate_simple_popularity_score (book : BookRecord) : ℝ :=
  let rating_score := book.average_rating / 5
  let count_score := min (Real.logb 10 ((book.ratings_count : ℝ) + 1) / 5) 1
  rating_score * 0.6 + count_score * 0.4

/-- The category prior always lies between the fallback 0.3 and the largest
table entry 0.8. -/
theorem category_score_bounds (c : String) :
    0.3 ≤ get_category_popularity_score c ∧ get_category_popularity_score c ≤ 0.8 := by
  unfold get_category_popularity_score
  split_ifs <;> norm_num

/-- Normal form of the popularity score: guarded components summed, then
clamped from above at 1. -/
theorem calculate_popularity_score_eq_min (b : BookRecord) :
    calculate_popularity_score b =
      min ((if b.average_rating > 0 then 0.3 * (b.average_rating / 5) else 0)
        + (if b.ratings_count > 0
            then 0.25 * min (Real.logb 10 ((b.ratings_count : ℝ) + 1) / 5) 1 else 0)
        + 0.15 * get_category_popularity_score b.simple_categories) 1 := by
  unfold calculate_popularity_score
  split_ifs <;> ring_nf

/-- The log-damped volume term is non-negative. -/
theorem volume_term_nonneg (n : ℕ) :
    0 ≤ min (Real.logb 10 ((n : ℝ) + 1) / 5) 1 := by
  have h1 : (1 : ℝ) ≤ (n : ℝ) + 1 := by
    have : (0 : ℝ) ≤ (n : ℝ) := Nat.cast_nonneg n
    linarith
  have hlog : 0 ≤ Real.logb 10 ((n : ℝ) + 1) :=
    Real.logb_nonneg (by norm_num) h1
  exact le_min (by linarith) (by norm_num)

/-- Closed form of the popularity score on the validated input domain:
with the rating in [0, 5] the clamp is inactive and both guards agree with
the unguarded weighted sum. -/
theorem popularity_score_closed_form (b : BookRecord)
    (h0 : 0 ≤ b.average_rating) (h5 : b.average_rating ≤ 5) :
    calculate_popularity_score b =
      0.3 * (b.average_rating / 5)
        + 0.25 * min (Real.logb 10 ((b.ratings_count : ℝ) + 1) / 5) 1
        + 0.15 * get_category_popularity_score b.simple_categories := by
  obtain ⟨hc3, hc8⟩ := category_score_bounds b.simple_categories
  have hv0 := volume_term_nonneg b.ratings_count
  have hv1 : min (Real.logb 10 ((b.ratings_count : ℝ) + 1) / 5) 1 ≤ 1 :=
    min_le_right _ _
  rw [calculate_popularity_score_eq_min]
  have hrate :
      (if b.average_rating > 0 then 0.3 * (b.average_rating / 5) else (0 : ℝ))
        = 0.3 * (b.average_rating / 5) := by
    rcases eq_or_lt_of_le h0 with h | h
    · rw [if_neg (by rw [← h]; exact lt_irrefl 0), ← h]
      norm_num
    · rw [if_pos h]
  have hvol :
      (if b.ratings_count > 0
        then 0.25 * min (Real.logb 10 ((b.ratings_count : ℝ) + 1) / 5) 1
        else (0 : ℝ))
        = 0.25 * min (Real.logb 10 ((b.ratings_count : ℝ) + 1) / 5) 1 := by
    rcases Nat.eq_zero_or_pos b.ratings_count with h | h
    · rw [if_neg (by omega), h]
      norm_num [Real.logb_one]
    · rw [if_pos h]
  rw [hrate, hvol]
  refine min_eq_left ?_
  nlinarith

/-- The popularity score always lies in [0, 1], with no hypotheses on the
record fields. -/
theorem popularity_score_mem_unit (b : BookRecord) :
    0 ≤ calculate_popularity_score b ∧ calculate_popularity_score b ≤ 1 := by
  obtain ⟨hc3, hc8⟩ := category_score_bounds b.simple_categories
  have hv0 := volume_term_nonneg b.ratings_count
  rw [calculate_popularity_score_eq_min]
  constructor
  · refine le_min ?_ (by norm_num)
    have h1 : (0 : ℝ) ≤
        (if b.average_rating > 0 then 0.3 * (b.average_rating / 5) else 0) := by
      split_ifs with h
      · nlinarith
      · exact le_refl 0
    have h2 : (0 : ℝ) ≤
        (if b.ratings_count > 0
          then 0.25 * min (Real.logb 10 ((b.ratings_count : ℝ) + 1) / 5) 1
          else 0) := by
      split_ifs with h
      · nlinarith
      · exact le_refl 0
    nlinarith
  · exact min_le_right _ _

/-- The guarded rating component is monotone in the rating. -/
theorem rating_component_mono {x y : ℝ} (h : x ≤ y) :
    (if x > 0 then 0.3 * (x / 5) else (0 : ℝ))
      ≤ (if y > 0 then 0.3 * (y / 5) else 0) := by
  split_ifs with hx hy
  · linarith
  · linarith
  · nlinarith
  · exact le_refl 0

/-- The guarded volume component is monotone in the ratings count. -/
theorem volume_component_mono {m n : ℕ} (h : m ≤ n) :
    (if m > 0 then 0.25 * min (Real.logb 10 ((m : ℝ) + 1) / 5) 1 else (0 : ℝ))
      ≤ (if n > 0 then 0.25 * min (Real.logb 10 ((n : ℝ) + 1) / 5) 1 else 0) := by
  have hvm := volume_term_nonneg m
  have hvn := volume_term_nonneg n
  split_ifs with hm hn
  · have hlog : Real.logb 10 ((m : ℝ) + 1) ≤ Real.logb 10 ((n : ℝ) + 1) := by
      refine Real.logb_le_logb_of_le (by norm_num) ?_ ?_
      · have : (0 : ℝ) ≤ (m : ℝ) := Nat.cast_nonneg m
        linarith
      · have : (m : ℝ) ≤ (n : ℝ) := Nat.cast_le.mpr h
        linarith
    have : min (Real.logb 10 ((m : ℝ) + 1) / 5) 1
        ≤ min (Real.logb 10 ((n : ℝ) + 1) / 5) 1 :=
      min_le_min (by linarith) (le_refl 1)
    linarith
  · omega
  · nlinarith
  · exact le_refl 0

/-- The popularity score is monotone non-decreasing in the rating, other
fields fixed. -/
theorem popularity_score_mono_rating (b₁ b₂ : BookRecord)
    (hrc : b₁.ratings_count = b₂.ratings_count)
    (hcat : b₁.simple_categories = b₂.simple_categories)
    (h : b₁.average_rating ≤ b₂.average_rating) :
    calculate_popularity_score b₁ ≤ calculate_popularity_score b₂ := by
  rw [calculate_popularity_score_eq_min, calculate_popularity_score_eq_min,
    hrc, hcat]
  have := rating_component_mono h
  exact min_le_min (by linarith) (le_refl 1)

/-- The popularity score is monotone non-decreasing in the ratings count,
other fields fixed. -/
theorem popularity_score_mono_count (b₁ b₂ : BookRecord)
    (hav : b₁.average_rating = b₂.average_rating)
    (hcat : b₁.simple_categories = b₂.simple_categories)
    (h : b₁.ratings_count ≤ b₂.ratings_count) :
    calculate_popularity_score b₁ ≤ calculate_popularity_score b₂ := by
  rw [calculate_popularity_score_eq_min, calculate_popularity_score_eq_min,
    hav, hcat]
  have := volume_component_mono h
  exact min_le_min (by linarith) (le_refl 1)

/-- Closed form of the simplified pipeline score of suggestion_agent.py:
weights 0.6 and 0.4, no guards, no category term, no clamp. -/
theorem simple_popularity_score_closed_form (b : BookRecord) :
    calculate_simple_popularity_score b =
      0.6 * (b.average_rating / 5)
        + 0.4 * min (Real.logb 10 ((b.ratings_count : ℝ) + 1) / 5) 1 := by
  unfold calculate_simple_popularity_score
  ring

/-- A concrete record on which the two scoring formulas disagree: top
rating, no ratings yet, Fiction. -/
noncomputable def score_parity_example : BookRecord :=
  { average_rating := 5, ratings_count := 0, simple_categories := "Fiction" }

/-- Embeds a candidate record flowing through the suggestion pipeline of
suggestion_agent.py.  isbn13 is Option Int: none stands for a missing key
(the dict.get default "" used by the source), some 0 for the falsy integer
zero.  popularity_score and emotion_score are the derived fields the
pipeline assigns in place; before assignment they hold the dict.get
default 0.  Score fields are exact rationals: the pipeline claims are
about ordering, duplication and length, which only read comparisons. -/
structure Candidate where
  isbn13 : Option Int
  average_rating : ℚ
  ratings_count : ℕ
  simple_categories : Option String
  joy : ℚ
  sadness : ℚ
  anger : ℚ
  fear : ℚ
  surprise : ℚ
  popularity_score : ℚ := 0
  emotion_score : ℚ := 0
deriving DecidableEq

/-- The dedup loop of SuggestionAgent.synthesize_recommendations: seen set
threaded through; a candidate is kept only when its isbn is truthy (present
and non-zero) and unseen, in which case its isbn joins the seen set. -/
def truthy_isbn : Option Int → Bool
  | none => false
  | some n => n != 0

def remove_duplicates (seen : List (Option Int)) :
    List Candidate → List Candidate
  | [] => []
  | r :: rs =>
      if truthy_isbn r.isbn13 ∧ r.isbn13 ∉ seen
      then r :: remove_duplicates (r.isbn13 :: seen) rs
      else remove_duplicates seen rs

/-- The in-place mutation result["popularity_score"] = scores.get(isbn, 0.0);
the scores argument embeds the dict together with its lookup default. -/
def assign_popularity (popularity_scores : Option Int → ℚ) (r : Candidate) :
    Candidate :=
  { r with popularity_score := popularity_scores r.isbn13 }

/-- Embeds SuggestionAgent.synthesize_recommendations: dedup, assign the
popularity scores, stable sort by popularity score descending, truncate. -/
def synthesize_recommendations (results : List Candidate)
    (popularity_scores : Option Int → ℚ) (top_k : ℕ) : List Candidate :=
  let unique_results := remove_duplicates [] results
  let scored := unique_results.map (assign_popularity popularity_scores)
  let sorted_results :=
    scored.insertionSort (fun a b => b.popularity_score ≤ a.popularity_score)
  sorted_results.take top_k

/-- The inner emotions dict of SuggestionAgent.get_emotion_scores, read back
through .get(target_emotion, 0.0). -/
def emotion_value (r : Candidate) (emotion : String) : ℚ :=
  if emotion = "joy" then r.joy
  else if emotion = "sadness" then r.sadness
  else if emotion = "anger" then r.anger
  else if emotion = "fear" then r.fear
  else if emotion = "surprise" then r.surprise
  else 0

/-- Embeds SuggestionAgent.get_emotion_scores: a dict keyed by isbn (later
duplicates overwrite earlier ones), read back through .get(isbn, { }). -/
def get_emotion_scores (results : List Candidate) (isbn : Option Int)
    (emotion : String) : ℚ :=
  match (results.filter (fun r => r.isbn13 = isbn)).getLast? with
  | some r => emotion_value r emotion
  | none => 0

/-- The emotion_mapping dict of SuggestionAgent.filter_by_emotion with its
.get(emotion_tone, "joy") fallback. -/
def emotion_mapping (emotion_tone : String) : String :=
  if emotion_tone = "Happy" then "joy"
  else if emotion_tone = "Sad" then "sadness"
  else if emotion_tone = "Angry" then "anger"
  else if emotion_tone = "Suspenseful" then "fear"
  else if emotion_tone = "Surprising" then "surprise"
  else "joy"

/-- Embeds SuggestionAgent.filter_by_emotion: tag every candidate with the
target emotion score, then stable sort by it descending.  It re-orders and
never removes. -/
def filter_by_emotion (results : List Candidate)
    (emotion_scores : Option Int → String → ℚ) (emotion_tone : String) :
    List Candidate :=
  let target_emotion := emotion_mapping emotion_tone
  let tagged := results.map
    (fun r => { r with emotion_score := emotion_scores r.isbn13 target_emotion })
  tagged.insertionSort (fun a b => b.emotion_score ≤ a.emotion_score)

/-- The filters dict of a recommendation request; none stands for a missing
key (dict.get returning None). -/
structure Filters where
  category : Option String
  min_rating : Option ℚ
  emotion_tone : Option String
deriving DecidableEq

/-- Embeds SuggestionAgent.apply_filters: category equality filter (active
only when the value is truthy and not "All"), minimum rating filter (active
only when the value is truthy, i.e. non-zero), then the emotion re-sort
(active only when the tone is truthy and not "All"). -/
def apply_filters (results : List Candidate) (filters : Filters) :
    List Candidate :=
  let step₁ :=
    match filters.category with
    | some c =>
        if c ≠ "" ∧ c ≠ "All"
        then results.filter (fun r => r.simple_categories = some c)
        else results
    | none => results
  let step₂ :=
    match filters.min_rating with
    | some m =>
        if m ≠ 0 then step₁.filter (fun r => m ≤ r.average_rating) else step₁
    | none => step₁
  match filters.emotion_tone with
  | some t =>
      if t ≠ "" ∧ t ≠ "All"
      then filter_by_emotion step₂ (get_emotion_scores step₂) t
      else step₂
  | none => step₂

/-- Embeds SuggestionAgent.get_popularity_scores: an empty dict when no
popularity agent reference is set, otherwise one score per candidate keyed
by isbn (later duplicates overwrite), read back through .get(isbn, 0.0).
The per-candidate numeric formula calculate_simple_popularity_score is
taken as a parameter: it is embedded separately over the reals (it uses
np.log10) and the pipeline claims hold for every scoring function. -/
def get_popularity_scores (pscore : Candidate → ℚ)
    (has_popularity_agent : Bool) (results : List Candidate) :
    Option Int → ℚ :=
  if has_popularity_agent then
    fun isbn =>
      match (results.filter (fun r => r.isbn13 = isbn)).getLast? with
      | some r => pscore r
      | none => 0
  else fun _ => 0

/-- The observable part of the response message built at the end of
SuggestionAgent.handle_recommendation_request. -/
structure RecommendationResponse where
  message_type : String
  recommendations : List Candidate
  total_found : ℕ
deriving DecidableEq

/-- Embeds SuggestionAgent.handle_recommendation_request downstream of the
external retrieval step: semantic_results is the sequence the Retriever
produced (the source obtains it from the vector database), then filters,
scoring, synthesis; total_found is the pre-filter retrieval count. -/
def handle_recommendation_request (pscore : Candidate → ℚ)
    (has_popularity_agent : Bool) (semantic_results : List Candidate)
    (filters : Filters) (top_k : ℕ) : RecommendationResponse :=
  let filtered_results := apply_filters semantic_results filters
  let popularity_scores :=
    get_popularity_scores pscore has_popularity_agent filtered_results
  let final_recommendations :=
    synthesize_recommendations filtered_results popularity_scores top_k
  { message_type := "recommendation_result"
    recommendations := final_recommendations
    total_found := semantic_results.length }


/-- Every record the dedup loop keeps has a truthy isbn that was not in the
seen set, and is the first record of the input carrying that isbn. -/
theorem remove_duplicates_first_occurrence :
    ∀ (l : List Candidate) (seen : List (Option Int)) (r : Candidate),
      r ∈ remove_duplicates seen l →
      truthy_isbn r.isbn13 = true ∧ r.isbn13 ∉ seen ∧
        l.find? (fun b => b.isbn13 = r.isbn13) = some r := by
  intro l
  induction l with
  | nil => intro seen r hr; simp [remove_duplicates] at hr
  | cons b bs ih =>
      intro seen r hr
      unfold remove_duplicates at hr
      by_cases hkeep : truthy_isbn b.isbn13 = true ∧ b.isbn13 ∉ seen
      · rw [if_pos hkeep] at hr
        rcases List.mem_cons.mp hr with hrb | hr₂
        · subst hrb
          refine ⟨hkeep.1, hkeep.2, ?_⟩
          simp [List.find?]
        · obtain ⟨ht, hnotin, hfind⟩ := ih (b.isbn13 :: seen) r hr₂
          have hne : b.isbn13 ≠ r.isbn13 := by
            intro h
            exact hnotin (h ▸ List.mem_cons_self b.isbn13 seen)
          refine ⟨ht, fun hc => hnotin (List.mem_cons_of_mem _ hc), ?_⟩
          have hpred : (fun x : Candidate => decide (x.isbn13 = r.isbn13)) b = false := by
            simp [hne]
          simp only [List.find?, hpred]
          exact hfind
      · rw [if_neg hkeep] at hr
        obtain ⟨ht, hnotin, hfind⟩ := ih seen r hr
        have hne : b.isbn13 ≠ r.isbn13 := by
          intro h
          exact hkeep ⟨h ▸ ht, h ▸ hnotin⟩
        have hpred : (fun x : Candidate => decide (x.isbn13 = r.isbn13)) b = false := by
          simp [hne]
        refine ⟨ht, hnotin, ?_⟩
        simp only [List.find?, hpred]
        exact hfind

/-- Keys already in the seen set never reappear in the dedup output. -/
theorem remove_duplicates_countP_seen :
    ∀ (l : List Candidate) (seen : List (Option Int)) (k : Option Int),
      k ∈ seen →
      (remove_duplicates seen l).countP (fun r => r.isbn13 = k) = 0 := by
  intro l
  induction l with
  | nil => intro seen k _; simp [remove_duplicates]
  | cons b bs ih =>
      intro seen k hk
      unfold remove_duplicates
      by_cases hkeep : truthy_isbn b.isbn13 = true ∧ b.isbn13 ∉ seen
      · rw [if_pos hkeep]
        have hbk : ¬ (b.isbn13 = k) := fun h => hkeep.2 (h ▸ hk)
        rw [List.countP_cons_of_neg _ _ (by simpa using hbk)]
        exact ih (b.isbn13 :: seen) k (List.mem_cons_of_mem _ hk)
      · rw [if_neg hkeep]
        exact ih seen k hk

/-- Each isbn key occurs at most once in the dedup output. -/
theorem remove_duplicates_countP_le_one :
    ∀ (l : List Candidate) (seen : List (Option Int)) (k : Option Int),
      (remove_duplicates seen l).countP (fun r => r.isbn13 = k) ≤ 1 := by
  intro l
  induction l with
  | nil => intro seen k; simp [remove_duplicates]
  | cons b bs ih =>
      intro seen k
      unfold remove_duplicates
      by_cases hkeep : truthy_isbn b.isbn13 = true ∧ b.isbn13 ∉ seen
      · rw [if_pos hkeep]
        by_cases hbk : b.isbn13 = k
        · rw [List.countP_cons_of_pos _ _ (by simpa using hbk)]
          have h0 := remove_duplicates_countP_seen bs (b.isbn13 :: seen) k
            (hbk ▸ List.mem_cons_self b.isbn13 seen)
          omega
        · rw [List.countP_cons_of_neg _ _ (by simpa using hbk)]
          exact ih (b.isbn13 :: seen) k
      · rw [if_neg hkeep]
        exact ih seen k

/-- Filtering for a fixed key value commutes with stable ordered insertion:
the inserted element lands in front of the equal-key block exactly when its
key matches, and every element it jumps over has a strictly larger key. -/
theorem filter_orderedInsert_key {α : Type} (key : α → ℚ) (c : ℚ) (a : α)
    (l : List α) :
    List.filter (fun x => key x = c)
        (List.orderedInsert (fun x y => key y ≤ key x) a l)
      = if key a = c
        then a :: List.filter (fun x => key x = c) l
        else List.filter (fun x => key x = c) l := by
  induction l with
  | nil =>
      simp only [List.orderedInsert, List.filter]
      split_ifs with h <;> simp_all
  | cons b bs ih =>
      simp only [List.orderedInsert]
      by_cases hab : key b ≤ key a
      · rw [if_pos hab]
        simp only [List.filter]
        split_ifs <;> simp_all
      · rw [if_neg hab]
        simp only [List.filter]
        by_cases hbc : key b = c
        · have hac : ¬ key a = c := by
            intro h
            exact hab (le_of_eq (hbc.trans h.symm))
          simp [hbc, hac, ih]
        · simp [hbc, ih]

/-- Filtering for a fixed key value sees the stable descending sort as the
identity: equal-key elements keep their relative input order. -/
theorem filter_insertionSort_key {α : Type} (key : α → ℚ) (c : ℚ)
    (l : List α) :
    List.filter (fun x => key x = c)
        (l.insertionSort (fun x y => key y ≤ key x))
      = List.filter (fun x => key x = c) l := by
  induction l with
  | nil => rfl
  | cons b bs ih =>
      simp only [List.insertionSort]
      rw [filter_orderedInsert_key key c b]
      by_cases h : key b = c
      · simp [List.filter, h, ih]
      · simp [List.filter, h, ih]

/-- The stable descending sort output is pairwise descending in the key. -/
theorem pairwise_insertionSort_key {α : Type} (key : α → ℚ) (l : List α) :
    (l.insertionSort (fun x y => key y ≤ key x)).Pairwise
      (fun x y => key y ≤ key x) := by
  haveI : IsTotal α (fun x y => key y ≤ key x) :=
    ⟨fun a b => le_total (key b) (key a)⟩
  haveI : IsTrans α (fun x y => key y ≤ key x) :=
    ⟨fun _ _ _ h₁ h₂ => le_trans h₂ h₁⟩
  exact List.sorted_insertionSort _ l

/-- Assigning the popularity score leaves the isbn key unchanged. -/
theorem assign_popularity_isbn (ps : Option Int → ℚ) (r : Candidate) :
    (assign_popularity ps r).isbn13 = r.isbn13 := rfl

/-- The synthesis output length is exactly min of top_k and the number of
candidates that survive deduplication. -/
theorem synthesize_length (results : List Candidate) (ps : Option Int → ℚ)
    (top_k : ℕ) :
    (synthesize_recommendations results ps top_k).length
      = min top_k (remove_duplicates [] results).length := by
  unfold synthesize_recommendations
  rw [List.length_take, List.length_insertionSort, List.length_map]

/-- The synthesis output is pairwise descending in the assigned popularity
score. -/
theorem synthesize_sorted (results : List Candidate) (ps : Option Int → ℚ)
    (top_k : ℕ) :
    (synthesize_recommendations results ps top_k).Pairwise
      (fun a b => b.popularity_score ≤ a.popularity_score) := by
  unfold synthesize_recommendations
  have h := pairwise_insertionSort_key (fun r : Candidate => r.popularity_score)
    ((remove_duplicates [] results).map (assign_popularity ps))
  exact List.Pairwise.sublist (List.take_sublist _ _) h

/-- Stability of the synthesis ranking: for every score value, the equal
score block of the output is an initial segment of the equal score block of
the scored dedup input, i.e. ties keep their pre-sort order. -/
theorem synthesize_stable (results : List Candidate) (ps : Option Int → ℚ)
    (top_k : ℕ) (c : ℚ) :
    ∃ t, ((remove_duplicates [] results).map (assign_popularity ps)).filter
          (fun r => r.popularity_score = c)
        = (synthesize_recommendations results ps top_k).filter
            (fun r => r.popularity_score = c) ++ t := by
  unfold synthesize_recommendations
  refine ⟨List.filter (fun r => r.popularity_score = c)
    (List.drop top_k
      (List.insertionSort (fun a b => b.popularity_score ≤ a.popularity_score)
        ((remove_duplicates [] results).map (assign_popularity ps)))), ?_⟩
  rw [← List.filter_append, List.take_append_drop]
  exact (filter_insertionSort_key (fun r : Candidate => r.popularity_score) c _).symm

/-- Every synthesized record is a dedup survivor with its popularity score
assigned. -/
theorem synthesize_mem (results : List Candidate) (ps : Option Int → ℚ)
    (top_k : ℕ) (r : Candidate)
    (hr : r ∈ synthesize_recommendations results ps top_k) :
    ∃ r₀ ∈ remove_duplicates [] results, r = assign_popularity ps r₀ := by
  unfold synthesize_recommendations at hr
  have h₁ := List.take_subset _ _ hr
  have h₂ := (List.perm_insertionSort _ _).mem_iff.mp h₁
  obtain ⟨r₀, hr₀, he⟩ := List.mem_map.mp h₂
  exact ⟨r₀, hr₀, he.symm⟩

/-- Each isbn key occurs at most once in the synthesized output. -/
theorem synthesize_countP_le_one (results : List Candidate)
    (ps : Option Int → ℚ) (top_k : ℕ) (k : Option Int) :
    (synthesize_recommendations results ps top_k).countP
      (fun r => r.isbn13 = k) ≤ 1 := by
  unfold synthesize_recommendations
  refine le_trans (List.Sublist.countP_le _ (List.take_sublist _ _)) ?_
  rw [List.Perm.countP_eq _ (List.perm_insertionSort _ _), List.countP_map]
  have hcomp : ((fun r : Candidate => decide (r.isbn13 = k)) ∘ assign_popularity ps)
      = fun r : Candidate => decide (r.isbn13 = k) := rfl
  rw [hcomp]
  exact remove_duplicates_countP_le_one results [] k

/-- Synthesis of an empty candidate list is empty. -/
theorem synthesize_nil (ps : Option Int → ℚ) (top_k : ℕ) :
    synthesize_recommendations [] ps top_k = [] := by
  simp [synthesize_recommendations, remove_duplicates]

/-- The emotion re-sort of an empty list is empty. -/
theorem filter_by_emotion_nil (es : Option Int → String → ℚ) (tone : String) :
    filter_by_emotion [] es tone = [] := rfl

/-- Filtering an empty retrieval result leaves it empty. -/
theorem apply_filters_nil (f : Filters) : apply_filters [] f = [] := by
  rcases f with ⟨c, m, t⟩
  unfold apply_filters
  cases c <;> cases m <;> cases t <;>
    simp_all <;> intros <;> rfl

/-- Updating a value in place does not change the key sequence. -/
theorem update_agent_keys (id : String) (f : Agent → Agent) :
    ∀ ags : List (String × Agent),
      (update_agent id f ags).map Prod.fst = ags.map Prod.fst := by
  intro ags
  induction ags with
  | nil => rfl
  | cons p rest ih =>
      rcases p with ⟨k, a⟩
      unfold update_agent
      by_cases hk : k = id
      · rw [if_pos hk]
        simp
      · rw [if_neg hk]
        simp only [List.map_cons]
        rw [ih]

/-- Routing never changes the set of registered keys. -/
theorem route_message_keys (h : AgentCommunicationHub) (m : AgentMessage) :
    (route_message h m).agents.map Prod.fst = h.agents.map Prod.fst := by
  unfold route_message
  split_ifs with hs
  · exact update_agent_keys _ _ _
  · rfl

/-- Lookup succeeds exactly on the registered keys. -/
theorem lookup_agent_isSome_iff (ags : List (String × Agent)) (id : String) :
    (lookup_agent ags id).isSome = true ↔ id ∈ ags.map Prod.fst := by
  unfold lookup_agent
  induction ags with
  | nil => simp
  | cons p rest ih =>
      rcases p with ⟨k, a⟩
      by_cases hk : k = id
      · subst hk
        simp [List.find?]
      · simp only [List.map_cons, List.mem_cons]
        rw [List.find?_cons_of_neg _ (by simp [hk])]
        rw [ih]
        constructor
        · intro hmem; exact Or.inr hmem
        · rintro (hmem | hmem)
          · exact absurd hmem.symm hk
          · exact hmem

/-- Looking up the updated key returns the updated value. -/
theorem lookup_update_agent_self (id : String) (f : Agent → Agent) :
    ∀ ags : List (String × Agent),
      lookup_agent (update_agent id f ags) id = (lookup_agent ags id).map f := by
  intro ags
  induction ags with
  | nil => rfl
  | cons p rest ih =>
      rcases p with ⟨k, a⟩
      unfold update_agent
      by_cases hk : k = id
      · rw [if_pos hk]
        unfold lookup_agent
        rw [List.find?_cons_of_pos _ (by simp [hk]),
          List.find?_cons_of_pos _ (by simp [hk])]
        rfl
      · rw [if_neg hk]
        unfold lookup_agent
        rw [List.find?_cons_of_neg _ (by simp [hk]),
          List.find?_cons_of_neg _ (by simp [hk])]
        exact ih

/-- Looking up any other key is unaffected by the update. -/
theorem lookup_update_agent_other (id id' : String) (f : Agent → Agent)
    (hne : id' ≠ id) :
    ∀ ags : List (String × Agent),
      lookup_agent (update_agent id f ags) id' = lookup_agent ags id' := by
  intro ags
  induction ags with
  | nil => rfl
  | cons p rest ih =>
      rcases p with ⟨k, a⟩
      unfold update_agent
      by_cases hk : k = id
      · rw [if_pos hk]
        subst hk
        unfold lookup_agent
        rw [List.find?_cons_of_neg _ (by simpa using Ne.symm hne),
          List.find?_cons_of_neg _ (by simpa using Ne.symm hne)]
      · rw [if_neg hk]
        unfold lookup_agent
        by_cases hk' : k = id'
        · rw [List.find?_cons_of_pos _ (by simp [hk']),
            List.find?_cons_of_pos _ (by simp [hk'])]
        · rw [List.find?_cons_of_neg _ (by simp [hk']),
            List.find?_cons_of_neg _ (by simp [hk'])]
          exact ih

/-- Unfolding equation: routing a sequence one message at a time. -/
theorem route_all_cons (h : AgentCommunicationHub) (m : AgentMessage)
    (ms : List AgentMessage) :
    route_all h (m :: ms) = route_all (route_message h m) ms := rfl

/-- Every deliverable message appended: the history after routing a
sequence of messages addressed to registered agents is the old history
extended by exactly that sequence; nothing is ever evicted. -/
theorem route_all_history :
    ∀ (msgs : List AgentMessage) (h : AgentCommunicationHub),
      (∀ m ∈ msgs, m.receiver_id ∈ h.agents.map Prod.fst) →
      (route_all h msgs).message_history = h.message_history ++ msgs := by
  intro msgs
  induction msgs with
  | nil => intro h _; simp [route_all]
  | cons m ms ih =>
      intro h hall
      have hm : (lookup_agent h.agents m.receiver_id).isSome = true :=
        (lookup_agent_isSome_iff _ _).mpr (hall m (List.mem_cons_self m ms))
      rw [route_all_cons]
      have hkeys := route_message_keys h m
      have hrest : ∀ x ∈ ms, x.receiver_id ∈ (route_message h m).agents.map Prod.fst := by
        intro x hx
        rw [hkeys]
        exact hall x (List.mem_cons_of_mem m hx)
      rw [ih (route_message h m) hrest]
      unfold route_message
      rw [if_pos hm]
      simp

/-- Routing to an unregistered receiver is a no-op on the whole hub state. -/
theorem route_message_unknown (h : AgentCommunicationHub) (m : AgentMessage)
    (hnone : lookup_agent h.agents m.receiver_id = none) :
    route_message h m = h := by
  unfold route_message
  rw [hnone]
  rfl

/-- Routing to a registered receiver appends exactly one history entry. -/
theorem route_message_history (h : AgentCommunicationHub) (m : AgentMessage)
    (hsome : (lookup_agent h.agents m.receiver_id).isSome = true) :
    (route_message h m).message_history = h.message_history ++ [m] := by
  unfold route_message
  rw [if_pos hsome]

/-- Routing to a registered receiver appends the message to exactly that
mailbox. -/
theorem route_message_receiver (h : AgentCommunicationHub) (m : AgentMessage)
    (a : Agent) (hsome : lookup_agent h.agents m.receiver_id = some a) :
    lookup_agent (route_message h m).agents m.receiver_id
      = some (receive_message a m) := by
  unfold route_message
  rw [if_pos (by rw [hsome]; rfl)]
  simp only []
  rw [lookup_update_agent_self, hsome]
  rfl

/-- Routing leaves every other registered agent untouched. -/
theorem route_message_other (h : AgentCommunicationHub) (m : AgentMessage)
    (id : String) (hne : id ≠ m.receiver_id) :
    lookup_agent (route_message h m).agents id = lookup_agent h.agents id := by
  unfold route_message
  split_ifs with hs
  · simp only []
    exact lookup_update_agent_other _ _ _ hne _
  · rfl

/-- The broadcast loop in hub form: folding the per-agent step over any
item list appends exactly the constructed messages to the history and
preserves the key sequence, provided every item key is registered in the
accumulator hub. -/
theorem broadcast_foldl_spec (sender_id message_type : String)
    (content : MessageContent) (priority : Nat) :
    ∀ (l : List (String × Agent)) (acc : AgentCommunicationHub),
      (∀ p ∈ l, p.1 ∈ acc.agents.map Prod.fst) →
      (l.foldl
          (fun acc p =>
            if p.1 ≠ sender_id then
              route_message acc (send_message p.2 p.1 message_type content priority)
            else acc)
          acc).message_history
        = acc.message_history
            ++ broadcast_sends l sender_id message_type content priority := by
  intro l
  induction l with
  | nil => intro acc _; simp [broadcast_sends]
  | cons p ps ih =>
      intro acc hall
      rcases p with ⟨k, a⟩
      simp only [List.foldl_cons]
      by_cases hk : k ≠ sender_id
      · rw [if_pos hk]
        have hreg : (lookup_agent acc.agents
            (send_message a k message_type content priority).receiver_id).isSome = true := by
          rw [lookup_agent_isSome_iff]
          exact hall (k, a) (List.mem_cons_self _ _)
        have hkeys := route_message_keys acc
          (send_message a k message_type content priority)
        have hrest : ∀ q ∈ ps, q.1 ∈ (route_message acc
            (send_message a k message_type content priority)).agents.map Prod.fst := by
          intro q hq
          rw [hkeys]
          exact hall q (List.mem_cons_of_mem _ hq)
        rw [ih _ hrest, route_message_history _ _ hreg]
        unfold broadcast_sends
        rw [List.filterMap_cons_some (by rw [if_pos hk])]
        simp [broadcast_sends]
      · rw [if_neg hk]
        have hrest : ∀ q ∈ ps, q.1 ∈ acc.agents.map Prod.fst :=
          fun q hq => hall q (List.mem_cons_of_mem _ hq)
        rw [ih _ hrest]
        unfold broadcast_sends
        rw [List.filterMap_cons_none (by rw [if_neg hk])]

/-- The broadcast history extension, phrased on broadcast_message itself. -/
theorem broadcast_message_history (h : AgentCommunicationHub)
    (sender_id message_type : String) (content : MessageContent)
    (priority : Nat) :
    (broadcast_message h sender_id message_type content priority).message_history
      = h.message_history
          ++ broadcast_sends h.agents sender_id message_type content priority := by
  unfold broadcast_message
  exact broadcast_foldl_spec sender_id message_type content priority h.agents h
    (fun p hp => List.mem_map_of_mem Prod.fst hp)

/-- When no item carries the sender key, the broadcast constructs one
message per item. -/
theorem broadcast_sends_length_of_absent (sender_id message_type : String)
    (content : MessageContent) (priority : Nat) :
    ∀ ags : List (String × Agent), (∀ q ∈ ags, q.1 ≠ sender_id) →
      (broadcast_sends ags sender_id message_type content priority).length
        = ags.length := by
  intro ags
  induction ags with
  | nil => intro _; rfl
  | cons p ps ih =>
      intro hall
      unfold broadcast_sends
      rw [List.filterMap_cons_some
        (by rw [if_pos (hall p (List.mem_cons_self _ _))])]
      have := ih (fun q hq => hall q (List.mem_cons_of_mem _ hq))
      unfold broadcast_sends at this
      simp only [List.length_cons]
      omega

/-- With distinct keys and the sender registered, a broadcast constructs
exactly one message fewer than there are registered agents. -/
theorem broadcast_sends_length (sender_id message_type : String)
    (content : MessageContent) (priority : Nat) :
    ∀ ags : List (String × Agent), (ags.map Prod.fst).Nodup →
      sender_id ∈ ags.map Prod.fst →
      (broadcast_sends ags sender_id message_type content priority).length
        = ags.length - 1 := by
  intro ags
  induction ags with
  | nil => intro _ hS; simp at hS
  | cons p ps ih =>
      intro hnd hS
      rcases p with ⟨k, a⟩
      simp only [List.map_cons, List.nodup_cons] at hnd
      by_cases hk : k = sender_id
      · subst hk
        unfold broadcast_sends
        rw [List.filterMap_cons_none (by rw [if_neg (by simp)])]
        have habsent : ∀ q ∈ ps, q.1 ≠ k := by
          intro q hq h
          exact hnd.1 (h ▸ List.mem_map_of_mem Prod.fst hq)
        have hlen := broadcast_sends_length_of_absent k message_type
          content priority ps habsent
        unfold broadcast_sends at hlen
        rw [hlen]
        simp
      · have hS' : sender_id ∈ ps.map Prod.fst := by
          rcases List.mem_cons.mp hS with h | h
          · exact absurd h.symm hk
          · exact h
        have hlen := ih hnd.2 hS'
        have hne : ps.length ≥ 1 := by
          rcases ps with _ | ⟨q, qs⟩
          · simp at hS'
          · simp
        unfold broadcast_sends
        rw [List.filterMap_cons_some (by rw [if_pos hk])]
        unfold broadcast_sends at hlen
        simp only [List.length_cons, hlen]
        omega

/-- Every message a broadcast constructs comes from a non-sender item and
is addressed by that item agent to its own key. -/
theorem broadcast_sends_mem (sender_id message_type : String)
    (content : MessageContent) (priority : Nat)
    (ags : List (String × Agent)) (m : AgentMessage)
    (hm : m ∈ broadcast_sends ags sender_id message_type content priority) :
    ∃ p ∈ ags, p.1 ≠ sender_id
      ∧ m = send_message p.2 p.1 message_type content priority := by
  unfold broadcast_sends at hm
  obtain ⟨p, hp, he⟩ := List.mem_filterMap.mp hm
  by_cases hk : p.1 ≠ sender_id
  · rw [if_pos hk] at he
    exact ⟨p, hp, hk, (Option.some.inj he).symm⟩
  · rw [if_neg hk] at he
    exact absurd he (Option.noConfusion)

/-- When every retrieved candidate falls below an active minimum rating
filter, the filter stage empties the pipeline. -/
theorem apply_filters_all_below_min (results : List Candidate)
    (c : Option String) (t : Option String) (m : ℚ) (hm0 : m ≠ 0)
    (hall : ∀ r ∈ results, r.average_rating < m) :
    apply_filters results ⟨c, some m, t⟩ = [] := by
  have hfilter : ∀ l : List Candidate, (∀ r ∈ l, r ∈ results) →
      l.filter (fun r => m ≤ r.average_rating) = [] := by
    intro l hl
    rw [List.filter_eq_nil_iff]
    intro r hr
    have := hall r (hl r hr)
    simp only [decide_eq_true_eq]
    intro hge
    linarith
  cases c with
  | none =>
      cases t with
      | none =>
          simp only [apply_filters]
          rw [if_pos hm0]
          exact hfilter results (fun r hr => hr)
      | some s =>
          simp only [apply_filters]
          rw [if_pos hm0, hfilter results (fun r hr => hr)]
          by_cases hs : s ≠ "" ∧ s ≠ "All"
          · rw [if_pos hs]
            rfl
          · rw [if_neg hs]
  | some s₁ =>
      cases t with
      | none =>
          simp only [apply_filters]
          by_cases hc : s₁ ≠ "" ∧ s₁ ≠ "All"
          · rw [if_pos hc, if_pos hm0]
            exact hfilter _ (fun r hr => List.mem_of_mem_filter hr)
          · rw [if_neg hc, if_pos hm0]
            exact hfilter results (fun r hr => hr)
      | some s =>
          simp only [apply_filters]
          by_cases hc : s₁ ≠ "" ∧ s₁ ≠ "All"
          · rw [if_pos hc, if_pos hm0,
              hfilter _ (fun r hr => List.mem_of_mem_filter hr)]
            by_cases hs : s ≠ "" ∧ s ≠ "All"
            · rw [if_pos hs]
              rfl
            · rw [if_neg hs]
          · rw [if_neg hc, if_pos hm0, hfilter results (fun r hr => hr)]
            by_cases hs : s ≠ "" ∧ s ≠ "All"
            · rw [if_pos hs]
              rfl
            · rw [if_neg hs]

/-- Embeds a catalog row as the popularity agent aggregations read it from
the pandas frame: simple_categories is Option String because the groupby
key column may be absent or hold missing values (pandas drops missing group
keys); the other fields are total. -/
structure TrendBook where
  isbn13 : Int
  title : String
  authors : String
  simple_categories : Option String
  average_rating : ℚ
  ratings_count : ℕ
deriving DecidableEq

/-- The .round(2) pandas post-processing of the aggregated statistics.
numpy rounds half to even; this embedding rounds half away from zero, and
the two agree everywhere except exact midpoints, which no claim in scope
observes (the claims about these aggregations concern emptiness only). -/
def round2 (q : ℚ) : ℚ := (round (q * 100) : ℤ) / 100

/-- Per-group aggregate of popularity_agent.py: mean rating, summed volume,
row count (the agg dict average_rating mean, ratings_count sum,
isbn13 count, rounded to two decimals). -/
structure GroupStat where
  average_rating : ℚ
  ratings_count : ℕ
  isbn_count : ℕ
deriving DecidableEq

/-- Group keys in first-occurrence order.  pandas emits groups in sorted
key order; the claims in scope observe only emptiness of the aggregation
output, which is independent of group order. -/
def category_keys (books : List TrendBook) : List String :=
  books.foldl
    (fun acc b =>
      match b.simple_categories with
      | some c => if c ∈ acc then acc else acc ++ [c]
      | none => acc) []

/-- Author group keys in first-occurrence order (see category_keys). -/
def author_keys (books : List TrendBook) : List String :=
  books.foldl
    (fun acc b => if b.authors ∈ acc then acc else acc ++ [b.authors]) []

/-- The per-group statistics record for one category value. -/
def group_stat (g : List TrendBook) : GroupStat :=
  { average_rating := round2 ((g.map (fun b => b.average_rating)).sum / (g.length : ℚ))
    ratings_count := (g.map (fun b => b.ratings_count)).sum
    isbn_count := g.length }

/-- Embeds PopularityAnalyzerAgent.analyze_category_trends: empty result
when the grouping column is absent (in particular on an empty frame),
otherwise per-category stats with the group trend score
0.4 * mean_rating + 0.6 * log10(summed_volume + 1). -/
noncomputable def analyze_category_trends (books : List TrendBook) :
    List (String × GroupStat × ℝ) :=
  if books.all (fun b => b.simple_categories = none) then []
  else
    (category_keys books).map
      (fun c =>
        let stat := group_stat (books.filter (fun b => b.simple_categories = some c))
        (c, stat,
          (stat.average_rating : ℝ) * 0.4
            + Real.logb 10 ((stat.ratings_count : ℝ) + 1) * 0.6))

/-- Embeds PopularityAnalyzerAgent.analyze_author_trends: empty result when
the authors column is absent (only possible on an empty frame here, the
field being total), otherwise per-author stats restricted to authors with
more than one book or mean rating above 4, sorted by mean rating
descending, first ten kept. -/
def analyze_author_trends (books : List TrendBook) :
    List (String × GroupStat) :=
  if books.isEmpty then []
  else
    (((author_keys books).map
        (fun s => (s, group_stat (books.filter (fun b => b.authors = s))))).filter
      (fun p => 1 < p.2.isbn_count ∨ 4 < p.2.average_rating)).insertionSort
        (fun a b => b.2.average_rating ≤ a.2.average_rating)
      |>.take 10

/-- Embeds PopularityAnalyzerAgent.calculate_trend_score: the three-tier
step function on volume and rating. -/
def calculate_trend_score (b : TrendBook) : ℚ :=
  if b.ratings_count > 100 ∧ b.average_rating > 4 then 0.8
  else if b.ratings_count > 50 ∧ b.average_rating > 3.5 then 0.6
  else 0.3

/-- Embeds PopularityAnalyzerAgent.identify_trending_books: empty input
gives an empty list, otherwise every row is scored and the twenty largest
trend scores are kept (nlargest keeps first occurrences on ties). -/
def identify_trending_books (books : List TrendBook) :
    List (TrendBook × ℚ) :=
  if books.isEmpty then []
  else
    ((books.map (fun b => (b, calculate_trend_score b))).insertionSort
      (fun a b => b.2 ≤ a.2)).take 20

/-- The criteria dict of a popular-books request; top_n defaults to 10
through criteria.get("top_n", 10). -/
structure Criteria where
  min_rating : Option ℚ
  min_ratings_count : Option ℕ
  category : Option String
  top_n : ℕ := 10
deriving DecidableEq

/-- Embeds PopularityAnalyzerAgent.filter_books_by_criteria: each criterion
applies only when its value is truthy. -/
def filter_books_by_criteria (books : List TrendBook) (criteria : Criteria) :
    List TrendBook :=
  let step₁ :=
    match criteria.min_rating with
    | some m =>
        if m ≠ 0 then books.filter (fun b => m ≤ b.average_rating) else books
    | none => books
  let step₂ :=
    match criteria.min_ratings_count with
    | some n =>
        if n ≠ 0 then step₁.filter (fun b => n ≤ b.ratings_count) else step₁
    | none => step₁
  match criteria.category with
  | some c =>
      if c ≠ "" then step₂.filter (fun b => b.simple_categories = some c)
      else step₂
  | none => step₂

/-- A catalog row viewed through the popularity score formula: the
dict.get defaults of calculate_popularity_score applied to a frame row,
with the missing category falling back to "Other". -/
noncomputable def trend_book_popularity (b : TrendBook) : ℝ :=
  calculate_popularity_score
    { average_rating := (b.average_rating : ℝ)
      ratings_count := b.ratings_count
      simple_categories := b.simple_categories.getD "Other" }

/-- The observable content of a popularity agent response message. -/
inductive PopularityResponseContent where
  | error (message : String)
  | trend_result (category_trends : List (String × GroupStat × ℝ))
      (author_trends : List (String × GroupStat))
      (trending_books : List (TrendBook × ℚ))
  | popular_books_result (popular_books : List (TrendBook × ℝ))
      (total_books_analyzed : ℕ)

/-- Embeds PopularityAnalyzerAgent.handle_trend_detection: an empty frame
is answered with an error_response message, otherwise with the three
aggregations under message type trend_analysis_result. -/
noncomputable def handle_trend_detection (books : List TrendBook) :
    String × PopularityResponseContent :=
  if books.isEmpty then
    ("error_response", PopularityResponseContent.error "No books data provided")
  else
    ("trend_analysis_result",
      PopularityResponseContent.trend_result (analyze_category_trends books)
        (analyze_author_trends books) (identify_trending_books books))

/-- Embeds PopularityAnalyzerAgent.handle_popular_books_request: an empty
frame is answered with an error_response message, otherwise the filtered
rows are scored, sorted descending and truncated to top_n. -/
noncomputable def handle_popular_books_request (books : List TrendBook)
    (criteria : Criteria) : String × PopularityResponseContent :=
  if books.isEmpty then
    ("error_response", PopularityResponseContent.error "No books data provided")
  else
    let filtered_books := filter_books_by_criteria books criteria
    let scored_books := filtered_books.map (fun b => (b, trend_book_popularity b))
    let sorted_books := scored_books.insertionSort (fun a b => b.2 ≤ a.2)
    ("popular_books_result",
      PopularityResponseContent.popular_books_result
        (sorted_books.take criteria.top_n) scored_books.length)

/-- A registered probe agent for concrete hub runs. -/
def history_probe_agent : Agent :=
  { agent_id := "suggestion_001", agent_name := "Suggestion Agent",
    message_queue := [], is_active := true }

/-- A hub with a single registered agent and empty history. -/
def history_probe_hub : AgentCommunicationHub :=
  { agents := [("suggestion_001", history_probe_agent)], message_history := [] }

/-- A deliverable message addressed to the registered probe agent. -/
def history_probe_message : AgentMessage :=
  { sender_id := "popularity_001", receiver_id := "suggestion_001",
    message_type := "get_recommendations", content := ([] : MessageContent),
    priority := 1 }

/-- A message addressed to an identity the probe hub never registered. -/
def unknown_receiver_message : AgentMessage :=
  { sender_id := "suggestion_001", receiver_id := "classification_001",
    message_type := "classify_text", content := ([] : MessageContent),
    priority := 1 }

/-- C3: the claim says the hub message history is bounded with a fixed
capacity and oldest-first eviction.  The code appends every successfully
routed message to self.message_history and never evicts, so no finite
bound exists: on a hub with one registered agent, routing n copies of a
deliverable message yields history length n, exceeding any proposed
capacity N at n = N + 1. -/
theorem claim_C3_counterexample :
    ¬ ∃ N : ℕ, ∀ n : ℕ,
      (route_all history_probe_hub
        (List.replicate n history_probe_message)).message_history.length ≤ N := by
  rintro ⟨N, hN⟩
  have hlen : (route_all history_probe_hub
      (List.replicate (N + 1) history_probe_message)).message_history.length
      = N + 1 := by
    rw [route_all_history]
    · simp [history_probe_hub]
    · intro x hx
      rw [List.eq_of_mem_replicate hx]
      simp [history_probe_hub, history_probe_message, history_probe_agent]
  have := hN (N + 1)
  omega

/-- C3 (amended): the hub message history is unbounded: routing any
sequence of messages addressed to registered agents appends exactly that
sequence to the history, one entry per message, and no entry is ever
evicted. -/
theorem claim_C3_amended (h : AgentCommunicationHub) (msgs : List AgentMessage)
    (hall : ∀ m ∈ msgs, m.receiver_id ∈ h.agents.map Prod.fst) :
    (route_all h msgs).message_history = h.message_history ++ msgs :=
  route_all_history msgs h hall

/-- C3 witness: the amended claim evaluated on the probe hub with two
deliverable messages. -/
theorem claim_C3_witness :
    (∀ m ∈ [history_probe_message, history_probe_message],
        m.receiver_id ∈ history_probe_hub.agents.map Prod.fst)
    ∧ (route_all history_probe_hub
          [history_probe_message, history_probe_message]).message_history
        = history_probe_hub.message_history
            ++ [history_probe_message, history_probe_message] := by
  have hall : ∀ m ∈ [history_probe_message, history_probe_message],
      m.receiver_id ∈ history_probe_hub.agents.map Prod.fst := by
    intro m hm
    rcases List.mem_cons.mp hm with h | h
    · subst h
      simp [history_probe_hub, history_probe_message]
    · rw [List.mem_singleton.mp h]
      simp [history_probe_hub, history_probe_message]
  exact ⟨hall, claim_C3_amended history_probe_hub
    [history_probe_message, history_probe_message] hall⟩

/-- C7: routing to an unregistered receiver raises nothing (the embedded
route_message is total), drops the message, leaves the whole hub state —
including every registered agent, hence the sender — unchanged, and
appends nothing to the history; routing to a registered receiver appends
the message to exactly that mailbox and exactly one entry to the history,
leaving every other agent untouched. -/
theorem claim_C7 (h : AgentCommunicationHub) (m : AgentMessage) :
    (lookup_agent h.agents m.receiver_id = none → route_message h m = h)
    ∧ (∀ a : Agent, lookup_agent h.agents m.receiver_id = some a →
        (route_message h m).message_history = h.message_history ++ [m]
        ∧ lookup_agent (route_message h m).agents m.receiver_id
            = some (receive_message a m)
        ∧ ∀ id : String, id ≠ m.receiver_id →
            lookup_agent (route_message h m).agents id
              = lookup_agent h.agents id) := by
  refine ⟨route_message_unknown h m, fun a ha => ⟨?_,
    route_message_receiver h m a ha, fun id hid => route_message_other h m id hid⟩⟩
  exact route_message_history h m (by rw [ha]; rfl)

/-- C7 witness: both branches evaluated on the probe hub, with a message to
an unregistered classifier identity and a deliverable message. -/
theorem claim_C7_witness :
    route_message history_probe_hub unknown_receiver_message = history_probe_hub
    ∧ (route_message history_probe_hub history_probe_message).message_history
        = history_probe_hub.message_history ++ [history_probe_message]
    ∧ lookup_agent (route_message history_probe_hub history_probe_message).agents
        history_probe_message.receiver_id
      = some (receive_message history_probe_agent history_probe_message)
    ∧ lookup_agent (route_message history_probe_hub history_probe_message).agents
        "popularity_001"
      = lookup_agent history_probe_hub.agents "popularity_001" := by
  have h1 := (claim_C7 history_probe_hub unknown_receiver_message).1 (by decide)
  have h2 := (claim_C7 history_probe_hub history_probe_message).2
    history_probe_agent (by decide)
  exact ⟨h1, h2.1, h2.2.1, h2.2.2 "popularity_001" (by decide)⟩

/-- C10: a broadcast from sender identity S constructs each delivered
message by calling the receiving agent own send_message targeted at its own
id, so every delivered message carries sender_id equal to the receiver own
identity and never S; with distinct registration keys and S registered,
exactly n - 1 messages are delivered and appended to the history. -/
theorem claim_C10 (h : AgentCommunicationHub) (S message_type : String)
    (content : MessageContent) (priority : Nat)
    (hwf : ∀ p ∈ h.agents, p.2.agent_id = p.1)
    (hnd : (h.agents.map Prod.fst).Nodup)
    (hS : S ∈ h.agents.map Prod.fst) :
    (broadcast_message h S message_type content priority).message_history
      = h.message_history
          ++ broadcast_sends h.agents S message_type content priority
    ∧ (broadcast_sends h.agents S message_type content priority).length
        = h.agents.length - 1
    ∧ ∀ m ∈ broadcast_sends h.agents S message_type content priority,
        m.sender_id = m.receiver_id ∧ m.sender_id ≠ S := by
  refine ⟨broadcast_message_history h S message_type content priority,
    broadcast_sends_length S message_type content priority h.agents hnd hS, ?_⟩
  intro m hm
  obtain ⟨p, hp, hps, he⟩ := broadcast_sends_mem S message_type content priority
    h.agents m hm
  subst he
  constructor
  · show p.2.agent_id = p.1
    exact hwf p hp
  · show p.2.agent_id ≠ S
    rw [hwf p hp]
    exact hps

/-- C10 witness: a two-agent hub, broadcast issued with the suggestion
agent as sender. -/
def broadcast_probe_agent : Agent :=
  { agent_id := "popularity_001", agent_name := "Popularity Analyzer Agent",
    message_queue := [], is_active := true }

/-- A hub with two registered agents for the broadcast witness. -/
def broadcast_probe_hub : AgentCommunicationHub :=
  { agents := [("suggestion_001", history_probe_agent),
               ("popularity_001", broadcast_probe_agent)],
    message_history := [] }

/-- C10 witness: the broadcast conclusions evaluated on the two-agent hub. -/
theorem claim_C10_witness :
    (broadcast_message broadcast_probe_hub "suggestion_001" "status_update"
        ([] : MessageContent) 1).message_history
      = broadcast_probe_hub.message_history
          ++ broadcast_sends broadcast_probe_hub.agents "suggestion_001"
              "status_update" ([] : MessageContent) 1
    ∧ (broadcast_sends broadcast_probe_hub.agents "suggestion_001"
        "status_update" ([] : MessageContent) 1).length
        = broadcast_probe_hub.agents.length - 1
    ∧ ∀ m ∈ broadcast_sends broadcast_probe_hub.agents "suggestion_001"
        "status_update" ([] : MessageContent) 1,
        m.sender_id = m.receiver_id ∧ m.sender_id ≠ "suggestion_001" :=
  claim_C10 broadcast_probe_hub "suggestion_001" "status_update"
    ([] : MessageContent) 1 (by decide) (by decide) (by decide)

/-- C1: for every record with average_rating in [0, 5] and a non-negative
integer ratings_count, the popularity score equals the weighted sum
0.3 * (rating / 5) + 0.25 * min(log10(count + 1) / 5, 1) + 0.15 * prior,
where the category prior maps the four listed categories to their fixed
constants and every other category to the fallback 0.3, and the result
lies in [0, 1] (the upper clamp is inactive on this domain because the
weighted sum never exceeds 0.67). -/
theorem claim_C1 (b : BookRecord) (h0 : 0 ≤ b.average_rating)
    (h5 : b.average_rating ≤ 5) :
    calculate_popularity_score b
      = 0.3 * (b.average_rating / 5)
        + 0.25 * min (Real.logb 10 ((b.ratings_count : ℝ) + 1) / 5) 1
        + 0.15 * get_category_popularity_score b.simple_categories
    ∧ (∀ cat : String, cat ≠ "Fiction" → cat ≠ "Nonfiction" →
        cat ≠ "Children\x27s Fiction" → cat ≠ "Children\x27s Nonfiction" →
        get_category_popularity_score cat = 0.3)
    ∧ 0 ≤ calculate_popularity_score b
    ∧ calculate_popularity_score b ≤ 1 := by
  refine ⟨popularity_score_closed_form b h0 h5, ?_,
    (popularity_score_mem_unit b).1, (popularity_score_mem_unit b).2⟩
  intro cat h1 h2 h3 h4
  unfold get_category_popularity_score
  rw [if_neg h1, if_neg h2, if_neg h3, if_neg h4]
  split_ifs <;> norm_num

/-- A concrete record inside the validated domain for the C1 witness. -/
noncomputable def c1_example_book : BookRecord :=
  { average_rating := 4, ratings_count := 0, simple_categories := "Fiction" }

/-- C1 witness: the formula, the fallback and the bounds evaluated at a
concrete record with rating 4, no ratings, category Fiction. -/
theorem claim_C1_witness :
    (0 ≤ c1_example_book.average_rating ∧ c1_example_book.average_rating ≤ 5)
    ∧ (calculate_popularity_score c1_example_book
        = 0.3 * (c1_example_book.average_rating / 5)
          + 0.25 * min (Real.logb 10 ((c1_example_book.ratings_count : ℝ) + 1) / 5) 1
          + 0.15 * get_category_popularity_score c1_example_book.simple_categories
      ∧ (∀ cat : String, cat ≠ "Fiction" → cat ≠ "Nonfiction" →
          cat ≠ "Children\x27s Fiction" → cat ≠ "Children\x27s Nonfiction" →
          get_category_popularity_score cat = 0.3)
      ∧ 0 ≤ calculate_popularity_score c1_example_book
      ∧ calculate_popularity_score c1_example_book ≤ 1) :=
  ⟨⟨by norm_num [c1_example_book], by norm_num [c1_example_book]⟩,
    claim_C1 c1_example_book (by norm_num [c1_example_book])
      (by norm_num [c1_example_book])⟩

/-- C6: the popularity score always lies in [0, 1], and it is monotone
non-decreasing in average_rating and in ratings_count when the other
record fields are held fixed. -/
theorem claim_C6 (b : BookRecord) :
    (0 ≤ calculate_popularity_score b ∧ calculate_popularity_score b ≤ 1)
    ∧ (∀ b' : BookRecord, b.ratings_count = b'.ratings_count →
        b.simple_categories = b'.simple_categories →
        b.average_rating ≤ b'.average_rating →
        calculate_popularity_score b ≤ calculate_popularity_score b')
    ∧ (∀ b' : BookRecord, b.average_rating = b'.average_rating →
        b.simple_categories = b'.simple_categories →
        b.ratings_count ≤ b'.ratings_count →
        calculate_popularity_score b ≤ calculate_popularity_score b') :=
  ⟨popularity_score_mem_unit b,
    fun b' hrc hcat hle => popularity_score_mono_rating b b' hrc hcat hle,
    fun b' hav hcat hle => popularity_score_mono_count b b' hav hcat hle⟩

/-- Concrete records for the C6 witness: a base record, one with a higher
rating, one with a higher ratings count. -/
noncomputable def c6_base_book : BookRecord :=
  { average_rating := 3, ratings_count := 10, simple_categories := "Other" }

/-- The base record with a strictly higher rating. -/
noncomputable def c6_higher_rating_book : BookRecord :=
  { average_rating := 4, ratings_count := 10, simple_categories := "Other" }

/-- The base record with a strictly higher ratings count. -/
noncomputable def c6_higher_count_book : BookRecord :=
  { average_rating := 3, ratings_count := 20, simple_categories := "Other" }

/-- C6 witness: bounds and both monotonicity statements applied at
concrete records. -/
theorem claim_C6_witness :
    (0 ≤ calculate_popularity_score c6_base_book
      ∧ calculate_popularity_score c6_base_book ≤ 1)
    ∧ calculate_popularity_score c6_base_book
        ≤ calculate_popularity_score c6_higher_rating_book
    ∧ calculate_popularity_score c6_base_book
        ≤ calculate_popularity_score c6_higher_count_book :=
  ⟨(claim_C6 c6_base_book).1,
    (claim_C6 c6_base_book).2.1 c6_higher_rating_book rfl rfl
      (by norm_num [c6_base_book, c6_higher_rating_book]),
    (claim_C6 c6_base_book).2.2 c6_higher_count_book rfl rfl
      (by norm_num [c6_base_book, c6_higher_count_book])⟩

/-- C2: the claim says the per-candidate score inside the suggestion
pipeline equals the popularity agent score.  It does not: at the record
with rating 5, zero ratings and category Fiction, the pipeline simplified
score is 0.6 while the popularity agent score is 0.42. -/
theorem claim_C2_counterexample :
    calculate_simple_popularity_score score_parity_example
      ≠ calculate_popularity_score score_parity_example := by
  rw [simple_popularity_score_closed_form,
    popularity_score_closed_form score_parity_example
      (by norm_num [score_parity_example]) (by norm_num [score_parity_example])]
  have hcat : get_category_popularity_score "Fiction" = 0.8 := by
    unfold get_category_popularity_score
    norm_num
  norm_num [score_parity_example, Real.logb_one, hcat]

/-- C2 (amended): the pipeline score is SuggestionAgent own simplified
formula 0.6 * (rating / 5) + 0.4 * volume: it shares the log base 10, the
+1 offset and the cap of the volume component with the popularity agent
formula, but uses weights 0.6 / 0.4, omits the category prior and the
final clamp, so the two scores differ in general. -/
theorem claim_C2_amended (b : BookRecord) (h0 : 0 ≤ b.average_rating)
    (h5 : b.average_rating ≤ 5) :
    calculate_simple_popularity_score b
      = 0.6 * (b.average_rating / 5)
        + 0.4 * min (Real.logb 10 ((b.ratings_count : ℝ) + 1) / 5) 1
    ∧ calculate_popularity_score b
      = 0.3 * (b.average_rating / 5)
        + 0.25 * min (Real.logb 10 ((b.ratings_count : ℝ) + 1) / 5) 1
        + 0.15 * get_category_popularity_score b.simple_categories :=
  ⟨simple_popularity_score_closed_form b,
    popularity_score_closed_form b h0 h5⟩

/-- C2 witness: both closed forms evaluated at the score parity example
record. -/
theorem claim_C2_witness :
    (0 ≤ score_parity_example.average_rating
      ∧ score_parity_example.average_rating ≤ 5)
    ∧ (calculate_simple_popularity_score score_parity_example
        = 0.6 * (score_parity_example.average_rating / 5)
          + 0.4 * min (Real.logb 10 ((score_parity_example.ratings_count : ℝ) + 1) / 5) 1
      ∧ calculate_popularity_score score_parity_example
        = 0.3 * (score_parity_example.average_rating / 5)
          + 0.25 * min (Real.logb 10 ((score_parity_example.ratings_count : ℝ) + 1) / 5) 1
          + 0.15 * get_category_popularity_score score_parity_example.simple_categories) :=
  ⟨⟨by norm_num [score_parity_example], by norm_num [score_parity_example]⟩,
    claim_C2_amended score_parity_example (by norm_num [score_parity_example])
      (by norm_num [score_parity_example])⟩

/-- A compact candidate builder for concrete pipeline runs: isbn, rating
and joy vary, the remaining fields are fixed. -/
def mk_candidate (isbn : Option Int) (rating : ℚ) (jy : ℚ) : Candidate :=
  { isbn13 := isbn, average_rating := rating, ratings_count := 0,
    simple_categories := none, joy := jy, sadness := 0, anger := 0,
    fear := 0, surprise := 0 }

/-- C4: for every candidate sequence, every scores dict and every top_k,
the synthesized output contains each isbn key at most once, and every
output record is the first record of the input sequence carrying its key
(with the popularity score assigned in place, which is the only field the
synthesis stage mutates). -/
theorem claim_C4 (results : List Candidate) (ps : Option Int → ℚ)
    (top_k : ℕ) :
    (∀ k : Option Int,
      (synthesize_recommendations results ps top_k).countP
        (fun r => r.isbn13 = k) ≤ 1)
    ∧ ∀ r ∈ synthesize_recommendations results ps top_k,
        ∃ r₀ : Candidate,
          results.find? (fun b => b.isbn13 = r.isbn13) = some r₀
          ∧ r = assign_popularity ps r₀ := by
  refine ⟨fun k => synthesize_countP_le_one results ps top_k k, ?_⟩
  intro r hr
  obtain ⟨r₀, hr₀, he⟩ := synthesize_mem results ps top_k r hr
  obtain ⟨_, _, hfind⟩ := remove_duplicates_first_occurrence results [] r₀ hr₀
  refine ⟨r₀, ?_, he⟩
  rw [he]
  exact hfind

/-- C4 witness: an input with a repeated key evaluated through the claim:
the duplicate is dropped and the retained record is the first occurrence. -/
theorem claim_C4_witness :
    (synthesize_recommendations
        [mk_candidate (some 1) 3 0, mk_candidate (some 1) 4 0,
          mk_candidate (some 2) 5 0] (fun _ => 1) 5).countP
      (fun r => r.isbn13 = some 1) ≤ 1
    ∧ ∃ r₀ : Candidate,
        [mk_candidate (some 1) 3 0, mk_candidate (some 1) 4 0,
          mk_candidate (some 2) 5 0].find?
          (fun b => b.isbn13
            = (assign_popularity (fun _ => 1) (mk_candidate (some 1) 3 0)).isbn13)
          = some r₀
        ∧ assign_popularity (fun _ => 1) (mk_candidate (some 1) 3 0)
            = assign_popularity (fun _ => 1) r₀ := by
  have h := claim_C4
    [mk_candidate (some 1) 3 0, mk_candidate (some 1) 4 0,
      mk_candidate (some 2) 5 0] (fun _ => 1) 5
  exact ⟨h.1 (some 1),
    h.2 (assign_popularity (fun _ => 1) (mk_candidate (some 1) 3 0)) (by decide)⟩

/-- The two-candidate input for the C5 counterexample: retrieved first with
low joy, retrieved second with high joy, both carrying a distinct key. -/
def c5_book_early : Candidate := mk_candidate (some 1) 4 0

/-- The later-retrieved candidate with the higher joy score. -/
def c5_book_late : Candidate := mk_candidate (some 2) 4 1

/-- A filter configuration requesting the Happy emotion tone only. -/
def c5_filters : Filters :=
  { category := none, min_rating := none, emotion_tone := some "Happy" }

/-- A scores dict assigning both candidates the same popularity score, as
the real dict does for records sharing rating and ratings count. -/
def c5_scores : Option Int → ℚ := fun _ => 1

/-- C5: the claim says score ties are broken by similarity rank ascending
(earlier retrieval wins) under every filter configuration including an
emotion tone.  The code breaks ties by the order in which candidates enter
the synthesis stage, and the emotion-tone filter has re-sorted that order
by emotion score descending: with two equal-score candidates where the
later-retrieved one has the higher joy score, the output lists the
later-retrieved candidate first, not the earlier-retrieved one. -/
theorem claim_C5_counterexample :
    (synthesize_recommendations
        (apply_filters [c5_book_early, c5_book_late] c5_filters) c5_scores 2).map
      (fun r => r.isbn13) = [some 2, some 1]
    ∧ (synthesize_recommendations
        (apply_filters [c5_book_early, c5_book_late] c5_filters) c5_scores 2).map
      (fun r => r.isbn13) ≠ [some 1, some 2]
    ∧ c5_scores (some 1) = c5_scores (some 2) := by
  refine ⟨by decide, ?_, rfl⟩
  intro hcontra
  have : (synthesize_recommendations
      (apply_filters [c5_book_early, c5_book_late] c5_filters) c5_scores 2).map
      (fun r => r.isbn13) = [some 2, some 1] := by decide
  rw [this] at hcontra
  simp at hcontra

/-- C5 (amended): the synthesis stage sorts by the assigned popularity
score descending with ties broken by the order in which candidates enter
the stage (which an emotion-tone filter has re-sorted by emotion score, so
earlier retrieval does not in general win ties), and truncates to exactly
min(top_k, count after deduplication). -/
theorem claim_C5_amended (results : List Candidate) (ps : Option Int → ℚ)
    (top_k : ℕ) :
    (synthesize_recommendations results ps top_k).length
      = min top_k (remove_duplicates [] results).length
    ∧ (synthesize_recommendations results ps top_k).Pairwise
        (fun a b => b.popularity_score ≤ a.popularity_score)
    ∧ ∀ c : ℚ, ∃ t,
        ((remove_duplicates [] results).map (assign_popularity ps)).filter
            (fun r => r.popularity_score = c)
          = (synthesize_recommendations results ps top_k).filter
              (fun r => r.popularity_score = c) ++ t :=
  ⟨synthesize_length results ps top_k, synthesize_sorted results ps top_k,
    fun c => synthesize_stable results ps top_k c⟩

/-- C8: the response total_found equals the pre-filter retrieval count; an
empty retrieval yields a normal recommendation_result response with an
empty recommendation list and total_found 0; an active min_rating filter
that excludes every candidate yields an empty recommendation list while
total_found still counts the retrieved candidates. -/
theorem claim_C8 (pscore : Candidate → ℚ) (has_agent : Bool)
    (semantic_results : List Candidate) (filters : Filters) (top_k : ℕ) :
    (handle_recommendation_request pscore has_agent semantic_results
        filters top_k).total_found = semantic_results.length
    ∧ (handle_recommendation_request pscore has_agent semantic_results
        filters top_k).message_type = "recommendation_result"
    ∧ (semantic_results = [] →
        (handle_recommendation_request pscore has_agent semantic_results
          filters top_k).recommendations = [])
    ∧ ∀ m : ℚ, filters.min_rating = some m → m ≠ 0 →
        (∀ r ∈ semantic_results, r.average_rating < m) →
        (handle_recommendation_request pscore has_agent semantic_results
          filters top_k).recommendations = [] := by
  refine ⟨rfl, rfl, ?_, ?_⟩
  · intro he
    subst he
    show synthesize_recommendations (apply_filters [] filters)
      (get_popularity_scores pscore has_agent (apply_filters [] filters))
      top_k = []
    rw [apply_filters_nil]
    exact synthesize_nil _ top_k
  · intro m hm hm0 hall
    rcases filters with ⟨c, mr, t⟩
    simp only at hm
    subst hm
    show synthesize_recommendations
      (apply_filters semantic_results ⟨c, some m, t⟩)
      (get_popularity_scores pscore has_agent
        (apply_filters semantic_results ⟨c, some m, t⟩)) top_k = []
    rw [apply_filters_all_below_min semantic_results c t m hm0 hall]
    exact synthesize_nil _ top_k

/-- C8 witness: an empty retrieval and a retrieval fully excluded by a
min_rating filter of 3, evaluated through the claim. -/
theorem claim_C8_witness :
    ((handle_recommendation_request (fun _ => 0) true []
        ⟨none, none, none⟩ 3).total_found = 0
      ∧ (handle_recommendation_request (fun _ => 0) true []
          ⟨none, none, none⟩ 3).recommendations = [])
    ∧ (handle_recommendation_request (fun _ => 0) true
        [mk_candidate (some 1) 2 0] ⟨none, some 3, none⟩ 1).total_found = 1
    ∧ (handle_recommendation_request (fun _ => 0) true
        [mk_candidate (some 1) 2 0] ⟨none, some 3, none⟩ 1).recommendations
      = [] := by
  have h1 := claim_C8 (fun _ => 0) true [] ⟨none, none, none⟩ 3
  have h2 := claim_C8 (fun _ => 0) true [mk_candidate (some 1) 2 0]
    ⟨none, some 3, none⟩ 1
  refine ⟨⟨?_, h1.2.2.1 rfl⟩, ?_, h2.2.2.2 3 rfl (by norm_num) ?_⟩
  · rw [h1.1]
    rfl
  · rw [h2.1]
    rfl
  · intro r hr
    rw [List.mem_singleton.mp hr]
    norm_num [mk_candidate]

/-- C9: the claim says an empty input collection to any popularity agent
aggregation yields an empty result and never an error-kind response.  The
code answers an empty books frame in both the trend-detection and the
popular-books handler with an error_response message. -/
theorem claim_C9_counterexample :
    (handle_trend_detection []).1 = "error_response"
    ∧ (handle_popular_books_request []
        { min_rating := none, min_ratings_count := none,
          category := none }).1 = "error_response" :=
  ⟨rfl, rfl⟩

/-- C9 (amended): on empty input the trend-detection and popular-books
handlers return (without raising: the embedded handlers are total) an
error_response message carrying the text "No books data provided", while
the underlying aggregations — category trends, author trends, trending
books — do return empty results on empty input. -/
theorem claim_C9_amended (criteria : Criteria) :
    handle_trend_detection []
      = ("error_response",
          PopularityResponseContent.error "No books data provided")
    ∧ handle_popular_books_request [] criteria
      = ("error_response",
          PopularityResponseContent.error "No books data provided")
    ∧ analyze_category_trends [] = []
    ∧ analyze_author_trends [] = []
    ∧ identify_trending_books [] = [] := by
  refine ⟨rfl, rfl, ?_, rfl, rfl⟩
  simp [analyze_category_trends]
